import Mathlib

/-!
Verification of the fftool ingestion engine (src/etl/robust_loader.py,
src/etl/robust_loader_v2.py, src/etl/pipeline.py).

The Python code is shallowly embedded: strings stay strings, Python's
int/float runtime numbers are modelled as exact rationals (every numeric
literal and parse in the registry's data is decimal, so `ℚ` is lossless
there), dicts become association lists with first-key-wins lookup, raised
exceptions become `Except`/`Option` results, and file-system writes become
explicit "sink" fields on the result structure.  Functions keep the names
of the Python functions they embed.
-/

/-- Python whitespace characters removed by `str.strip()`. -/
def isPySpace (c : Char) : Bool :=
  c == ' ' || c == '\t' || c == '\n' || c == '\x0d' || c == '\x0b' || c == '\x0c'

/-- `str.strip()`: remove leading and trailing whitespace. -/
def pyTrim (s : String) : String :=
  ⟨((s.toList.dropWhile isPySpace).reverse.dropWhile isPySpace).reverse⟩

/-- `str.replace(c, '')` for a single-character pattern: drop every occurrence. -/
def removeChar (c : Char) (s : String) : String :=
  ⟨s.toList.filter (fun a => a != c)⟩

/-- `str.lower()` (the registry's data is ASCII, so `Char.toLower` matches). -/
def pyLower (s : String) : String :=
  ⟨s.toList.map Char.toLower⟩

/-- `str.upper()`. -/
def pyUpper (s : String) : String :=
  ⟨s.toList.map Char.toUpper⟩

/-- Numeric value of a digit string. -/
def decimalVal (cs : List Char) : Nat :=
  cs.foldl (fun a c => a * 10 + (c.toNat - 48)) 0

/-- A nonempty all-digit character run, or failure. -/
def digitsNat? (cs : List Char) : Option Nat :=
  if !cs.isEmpty && cs.all Char.isDigit then some (decimalVal cs) else none

/-- Python `int(...)` on an already-stripped string: optional sign then digits.
(Digit-group underscores and other exotic literal forms never occur in the
registry's data and are not modelled.) -/
def intChars? (cs : List Char) : Option Int :=
  match cs with
  | '+' :: rest => (digitsNat? rest).map Int.ofNat
  | '-' :: rest => (digitsNat? rest).map (fun n => -(Int.ofNat n))
  | _ => (digitsNat? cs).map Int.ofNat

/-- Python `int(...)` on a string. -/
def pyInt? (s : String) : Option Int :=
  intChars? s.toList

/-- Unsigned decimal mantissa as an exact numerator/denominator pair: digits
with at most one point and at least one digit (`"1."`, `".5"`, `"1.5"`,
`"15"`). -/
def mantissaParts? (cs : List Char) : Option (Int × Nat) :=
  let p := cs.span (fun c => c != '.')
  match p.2 with
  | [] => (digitsNat? p.1).map (fun n => ((n : Int), 1))
  | _ :: fp =>
    if fp.contains '.' then none
    else if p.1.isEmpty && fp.isEmpty then none
    else if p.1.all Char.isDigit && fp.all Char.isDigit then
      some (((decimalVal p.1 * 10 ^ fp.length + decimalVal fp : Nat) : Int), 10 ^ fp.length)
    else none

/-- Signed decimal mantissa parts. -/
def signedMantissaParts? (cs : List Char) : Option (Int × Nat) :=
  match cs with
  | '+' :: r => mantissaParts? r
  | '-' :: r => (mantissaParts? r).map (fun p => (-p.1, p.2))
  | _ => mantissaParts? cs

/-- Decimal literal as an exact numerator/denominator pair, with optional
exponent. -/
def pyFloatParts? (s : String) : Option (Int × Nat) :=
  let cs := s.toList
  let p := cs.span (fun c => c != 'e' && c != 'E')
  match p.2 with
  | [] => signedMantissaParts? cs
  | _ :: ex =>
    match signedMantissaParts? p.1, intChars? ex with
    | some m, some z =>
      if 0 ≤ z then some (m.1 * (10 : Int) ^ z.toNat, m.2)
      else some (m.1, m.2 * 10 ^ (-z).toNat)
    | _, _ => none

/-- Python `float(...)` on an already-stripped string, modelled on plain
decimal literals (sign, digits, optional fraction, optional exponent); the
special forms `inf`/`nan` never occur in the registry's data. -/
def pyFloat? (s : String) : Option ℚ :=
  (pyFloatParts? s).map (fun p => mkRat p.1 p.2)

/-- Python `int(float)`: truncation toward zero. -/
def qTrunc (q : ℚ) : Int :=
  if 0 ≤ q then q.floor else -((-q).floor)

/-- `NA_TOKENS` of robust_loader.py (lines 53-57): the exact spelling set. -/
def NA_TOKENS : List String :=
  ["", "NA", "N/A", "n/a", "null", "NULL", "None", "NONE",
   "nan", "NaN", "NAN", "#N/A", "#NA", "#NULL!", "--",
   "undefined", "UNDEFINED", "missing", "MISSING", "-"]

/-- `NA_TOKENS` of robust_loader_v2.py (lines 44-47), a smaller set. -/
def NA_TOKENS_V2 : List String :=
  ["", "NA", "N/A", "n/a", "null", "NULL", "None",
   "nan", "NaN", "#N/A", "#NULL!", "--", "-"]

/-- `TEAM_MAPPINGS` (robust_loader.py lines 60-66): alias table for
non-standard team codes. -/
def TEAM_MAPPINGS : List (String × String) :=
  [("BLT", "BAL"), ("ARZ", "ARI"), ("HST", "HOU"), ("LA", "LAR"), ("CLV", "CLE")]

/-- `VALID_TEAMS` (robust_loader.py lines 69-75). -/
def VALID_TEAMS : List String :=
  ["ARI", "ATL", "BAL", "BUF", "CAR", "CHI", "CIN", "CLE",
   "DAL", "DEN", "DET", "GB", "HOU", "IND", "JAX", "KC",
   "LAC", "LAR", "LV", "MIA", "MIN", "NE", "NO", "NYG",
   "NYJ", "PHI", "PIT", "SEA", "SF", "TB", "TEN", "WAS", "WSH"]

/-- Column dtypes used by the registry (`'str' | 'int' | 'float' | 'bool'`). -/
inductive Dtype where
  | str
  | int
  | float
  | bool
deriving DecidableEq, Repr

/-- The `allowed_range` list of a `ColumnSpec`: either a numeric `[low, high]`
pair (the code reads `allowed_range[0]` and `allowed_range[-1]`) or a
categorical value set. -/
inductive AllowedRange where
  | numeric (lo hi : ℚ)
  | cat (vals : List String)
deriving DecidableEq, Repr

/-- `ColumnSpec` dataclass (robust_loader.py lines 84-93); the `units`,
`primary_key` and `unique` fields are never consulted by the loader and are
omitted. -/
structure ColumnSpec where
  name : String
  dtype : Dtype
  nullable : Bool
  allowed_range : Option AllowedRange
deriving DecidableEq, Repr

/-- A parsed cell value.  Python `None` is `null`; Python `int`/`float`
results are both exact rationals (`int` parses always yield integral ones). -/
inductive Value where
  | null
  | str (s : String)
  | num (q : ℚ)
  | bool (b : Bool)
deriving DecidableEq, Repr

/-- The `ValueError`s raised by `parse_value`, as structured data. -/
inductive ParseErr where
  | requiredValueMissing (column : String)
  | typeCoercionFailure (column value : String)
  | invalidCategoricalValue (column value : String)
deriving DecidableEq, Repr

deriving instance DecidableEq for Except

/-- Association-list lookup with first-key-wins semantics (Python dict get). -/
def alookup {β : Type} (k : String) : List (String × β) → Option β
  | [] => none
  | p :: rest => if p.1 = k then some p.2 else alookup k rest

/-- The team-alias consultation inside the categorical branch: only the three
team columns are eligible (robust_loader.py lines 313, 324). -/
def team_alias (columnName s : String) : Option String :=
  if columnName = "teamName" ∨ columnName = "Team Abbreviation" ∨ columnName = "Team" then
    alookup s TEAM_MAPPINGS
  else none

/-- The `try:` block of `parse_value` (robust_loader.py lines 250-291): dtype
conversion.  `none` models an exception caught at line 293. -/
def coerce_dtype (dtype : Dtype) (value : String) : Option (Value × Bool) :=
  match dtype with
  | .str =>
    -- `parsed = str(value).strip() if value else None` (line 252)
    if value = "" then some (.null, false) else some (.str (pyTrim value), false)
  | .int =>
    -- strip thousands separator and currency symbol, then int parse (254-266)
    let v := pyTrim (removeChar '$' (removeChar ',' value))
    if v.toList.contains '.' then
      match pyFloat? v with
      | some q => some (.num ((qTrunc q : ℤ) : ℚ), true)
      | none => none
    else
      match pyInt? v with
      | some n => some (.num (n : ℚ), false)
      | none => none
  | .float =>
    -- strip ',', '$', '%' then float parse (268-274); no division by 100
    let v := pyTrim (removeChar '%' (removeChar '$' (removeChar ',' value)))
    match pyFloat? v with
    | some q => some (.num q, false)
    | none => none
  | .bool =>
    let vl := pyTrim (pyLower value)
    if vl = "true" ∨ vl = "yes" ∨ vl = "1" ∨ vl = "t" ∨ vl = "y" then
      some (.bool true, false)
    else if vl = "false" ∨ vl = "no" ∨ vl = "0" ∨ vl = "f" ∨ vl = "n" then
      some (.bool false, false)
    else none

/-- The allowed-range block of `parse_value` (robust_loader.py lines 300-336).
Skipped for `None` (null) values and absent ranges.  The final catch-all
covers dtype/range pairings the registry never produces (a categorical range
on a numeric value falls through Python's `if/elif` chain returning the value
unchanged; a numeric range on a string would raise an uncaught `TypeError`
in Python and is likewise out of the registry's reach). -/
def validate_range (spec : ColumnSpec) (parsed : Value) (was_coerced : Bool) :
    Except ParseErr (Value × Bool) :=
  match parsed, spec.allowed_range with
  | .null, _ => .ok (.null, was_coerced)
  | p, none => .ok (p, was_coerced)
  | .num q, some (.numeric lo hi) =>
    if lo ≤ q ∧ q ≤ hi then .ok (.num q, was_coerced)
    else .ok (.num (max lo (min q hi)), true)
  | .str s, some (.cat vals) =>
    if s ∈ vals then .ok (.str s, was_coerced)
    else
      match team_alias spec.name s with
      | some m => .ok (.str m, true)
      | none =>
        if spec.dtype = .str then
          let u := pyUpper s
          if u ∈ vals then .ok (.str u, true)
          else
            match team_alias spec.name u with
            | some m => .ok (.str m, true)
            | none =>
              if spec.nullable then .ok (.null, true)
              else .error (.invalidCategoricalValue spec.name s)
        else .ok (.str s, was_coerced)
  | p, some _ => .ok (p, was_coerced)

/-- `RobustCSVLoader.parse_value` (robust_loader.py lines 236-337). -/
def parse_value (value : String) (spec : ColumnSpec) : Except ParseErr (Value × Bool) :=
  if value ∈ NA_TOKENS ∨ pyTrim value ∈ NA_TOKENS then
    if spec.nullable then .ok (.null, false)
    else .error (.requiredValueMissing spec.name)
  else
    match coerce_dtype spec.dtype value with
    | some pc => validate_range spec pc.1 pc.2
    | none =>
      if spec.nullable then .ok (.null, true)
      else .error (.typeCoercionFailure spec.name value)

/-- `str.rstrip('%')`: drop every trailing percent sign. -/
def stripPctRight (s : String) : String :=
  ⟨(s.toList.reverse.dropWhile (fun c => c == '%')).reverse⟩

/-- `RobustCSVLoaderV2.parse_value` (robust_loader_v2.py lines 150-173):
schemaless coercion; a trailing-percent number is divided by 100, otherwise a
plain int/float parse is attempted, and on failure the original string is
returned unchanged. -/
def parse_value_v2 (value : String) : Value :=
  if value ∈ NA_TOKENS_V2 then .null
  else
    match (if value.toList.getLast? = some '%' then
             (pyFloatParts? (stripPctRight value)).map (fun p => mkRat p.1 (p.2 * 100))
           else none) with
    | some q => .num q
    | none =>
      if value.toList.contains '.' then
        match pyFloat? value with
        | some q => .num q
        | none => .str value
      else
        match pyInt? value with
        | some n => .num (n : ℚ)
        | none => .str value

/-- A typed record: its 1-based source row number (`_row_number`, header is
row 1 so data starts at 2) and its parsed fields in column order. -/
structure Row where
  rowNumber : Nat
  fields : List (String × Value)
deriving DecidableEq, Repr

/-- One key-column contribution to the composite duplicate key
(robust_loader.py lines 350-356): `row.get(col, '')`, lower-cased and
trimmed when a string, then `str(...)`. -/
def keyPart (v : Option Value) : String :=
  match v with
  | none => ""
  | some .null => "None"
  | some (.str s) => pyTrim (pyLower s)
  | some (.num q) => if q.den = 1 then toString q.num else toString q
  | some (.bool b) => if b then "True" else "False"

/-- The composite duplicate key: parts joined with `'|'`
(robust_loader.py line 357). -/
def compositeKey (key_columns : List String) (r : Row) : String :=
  String.intercalate "|" (key_columns.map (fun c => keyPart (alookup c r.fields)))

/-- A quarantined duplicate: the record plus its `_duplicate_of_row` and
`_duplicate_key` annotations (robust_loader.py lines 361-365). -/
structure DupInfo where
  row : Row
  dupOfRow : Nat
  dupKey : String
deriving DecidableEq, Repr

/-- The loop state of `detect_duplicates`: the `seen_keys` dict (association
list), the `unique` list, and the `duplicates` list. -/
structure DDState where
  seen : List (String × Nat)
  unique : List Row
  duplicates : List DupInfo
deriving Repr

/-- One iteration of the `detect_duplicates` loop (robust_loader.py lines
348-369): a seen key appends an annotated duplicate, a fresh key records
`len(unique) + 1` and keeps the record. -/
def ddStep (key_columns : List String) (st : DDState) (r : Row) : DDState :=
  let key := compositeKey key_columns r
  match alookup key st.seen with
  | some first => { st with duplicates := st.duplicates ++ [⟨r, first, key⟩] }
  | none =>
    { seen := st.seen ++ [(key, st.unique.length + 1)],
      unique := st.unique ++ [r],
      duplicates := st.duplicates }

/-- `RobustCSVLoader.detect_duplicates` (robust_loader.py lines 339-371). -/
def detect_duplicates (data : List Row) (key_columns : List String) :
    List Row × List DupInfo :=
  let st := data.foldl (ddStep key_columns) ⟨[], [], []⟩
  (st.unique, st.duplicates)

/-- Structural-recursion companion of the `detect_duplicates` loop, used to
reason about it: `seen` is the accumulated key table and `n` the number of
unique records already kept. -/
def dd (cols : List String) : List Row → List (String × Nat) → Nat → List Row × List DupInfo
  | [], _, _ => ([], [])
  | r :: rest, seen, n =>
    let key := compositeKey cols r
    match alookup key seen with
    | some i =>
      let p := dd cols rest seen n
      (p.1, ⟨r, i, key⟩ :: p.2)
    | none =>
      let p := dd cols rest (seen ++ [(key, n + 1)]) (n + 1)
      (r :: p.1, p.2)

/-- A raw CSV record as handed over by `csv.DictReader`: field name/value
pairs in header order.  (`DictReader` never produces duplicate string keys;
the `None` key holding overflow cells of a too-long line is skipped by the
loop and not modelled.) -/
def RawRow : Type := List (String × String)

/-- One entry of a row's `row_exceptions` list (robust_loader.py 506-511). -/
structure RowException where
  row : Nat
  column : String
  value : String
  error : ParseErr
deriving DecidableEq, Repr

/-- `_quarantine_reason` values. -/
inductive QReason where
  | validation_failed
  | duplicate
deriving DecidableEq, Repr

/-- A quarantined record with its reason, its field-level exceptions and,
for duplicates, the `_duplicate_of_row` / `_duplicate_key` annotations. -/
structure QRow where
  row : Row
  reason : QReason
  exceptions : List RowException
  dupOfRow : Option Nat
  dupKey : Option String
deriving DecidableEq, Repr

/-- File-level load errors (the `errors` list of `LoadResult`). -/
inductive LoadErr where
  | missingColumns (cols : List String)
  | rowError (e : ParseErr)
deriving DecidableEq, Repr

/-- Entries of `FileMetadata.exceptions`: field-level exception dicts of
quarantined rows, or an `{'error': str(e)}` entry from the outer handler. -/
inductive ExcEntry where
  | field (e : RowException)
  | load (e : LoadErr)
deriving DecidableEq, Repr

/-- Warnings recorded by `load_csv`. -/
inductive LoadWarning where
  | missingColumns (cols : List String)
  | extraColumns (cols : List String)
  | quarantinedRows (count : Nat)
deriving DecidableEq, Repr

/-- Per-row accumulator of the column loop (robust_loader.py 484-517):
the parsed fields so far, the row's exception list, the `row_valid` flag,
and this row's contributions to the file-level coercion/null counters. -/
structure RowAcc where
  fields : List (String × Value)
  rowExceptions : List RowException
  rowValid : Bool
  coercions : Nat
  nulls : Nat
deriving DecidableEq, Repr

/-- One iteration of `for col_name, value in row.items()` (robust_loader.py
488-517).  A returned error is the strict-mode `raise` propagating out of
the row loop; in lenient mode failures only mark the row invalid. -/
def processColumn (specs : List (String × ColumnSpec)) (strict : Bool) (rowNum : Nat)
    (acc : RowAcc) (cv : String × String) : RowAcc × Option ParseErr :=
  let col := pyTrim cv.1
  match alookup col specs with
  | some spec =>
    match parse_value cv.2 spec with
    | .ok pv =>
      ({ acc with
          fields := acc.fields ++ [(col, pv.1)],
          coercions := acc.coercions + (if pv.2 then 1 else 0),
          nulls := acc.nulls + (if pv.1 = .null then 1 else 0) }, none)
    | .error e =>
      let acc' := { acc with
          rowExceptions := acc.rowExceptions ++ [⟨rowNum, col, cv.2, e⟩],
          rowValid := false }
      if strict then (acc', some e) else (acc', none)
  | none =>
    -- no spec: keep as trimmed string, the empty string becoming null
    -- (`str(value).strip() if value else None`, line 517)
    ({ acc with
        fields := acc.fields ++ [(col, if cv.2 = "" then Value.null else .str (pyTrim cv.2))] },
     none)

/-- The column loop over one raw record. -/
def processRowAux (specs : List (String × ColumnSpec)) (strict : Bool) (rowNum : Nat) :
    List (String × String) → RowAcc → RowAcc × Option ParseErr
  | [], acc => (acc, none)
  | cv :: rest, acc =>
    match processColumn specs strict rowNum acc cv with
    | (acc', some e) => (acc', some e)
    | (acc', none) => processRowAux specs strict rowNum rest acc'

/-- State of the row loop (robust_loader.py 435-442 and 482-527). -/
structure LoopState where
  total_rows : Nat
  parsed : List Row
  quarantined : List QRow
  coercion_count : Nat
  null_count : Nat
  exceptions : List RowException
deriving DecidableEq, Repr

def initialLoop : LoopState := ⟨0, [], [], 0, 0, []⟩

/-- The row loop (`for row_num, row in enumerate(reader, start=2)`).  A
strict-mode failure stops the iteration and reports the exception; the
state accumulated so far survives, as the Python locals do. -/
def rowsLoop (specs : List (String × ColumnSpec)) (strict : Bool) :
    List RawRow → Nat → LoopState → LoopState × Option ParseErr
  | [], _, st => (st, none)
  | raw :: rest, rowNum, st =>
    let st1 := { st with total_rows := st.total_rows + 1 }
    let pr := processRowAux specs strict rowNum raw ⟨[], [], true, 0, 0⟩
    let st2 := { st1 with
        coercion_count := st1.coercion_count + pr.1.coercions,
        null_count := st1.null_count + pr.1.nulls }
    match pr.2 with
    | some e => (st2, some e)
    | none =>
      if pr.1.rowValid then
        rowsLoop specs strict rest (rowNum + 1)
          { st2 with parsed := st2.parsed ++ [⟨rowNum, pr.1.fields⟩] }
      else
        rowsLoop specs strict rest (rowNum + 1)
          { st2 with
              quarantined := st2.quarantined ++
                [⟨⟨rowNum, pr.1.fields⟩, .validation_failed, pr.1.rowExceptions, none, none⟩],
              exceptions := st2.exceptions ++ pr.1.rowExceptions }

/-- `missing_cols = expected_cols - actual_cols` (robust_loader.py 467). -/
def header_missing (column_specs : List (String × ColumnSpec)) (fieldnames : List String) :
    List String :=
  (column_specs.map Prod.fst).filter (fun c => decide (c ∉ fieldnames))

/-- `extra_cols = actual_cols - expected_cols` (robust_loader.py 468). -/
def header_extra (column_specs : List (String × ColumnSpec)) (fieldnames : List String) :
    List String :=
  fieldnames.filter (fun c => decide (c ∉ column_specs.map Prod.fst))

/-- Key columns of the per-file duplicate pass (robust_loader.py 537-542). -/
def dedup_key_cols (filename : String) : List String :=
  if filename = "projections_2025.csv" then ["playerName", "position", "teamName"]
  else if filename = "adp0_2025.csv" then ["Full Name", "Position", "Team Abbreviation"]
  else []

/-- `str.startswith('_')` on a field name. -/
def leadingUnderscore (s : String) : Bool :=
  s.toList.head? == some '_'

/-- The strict missing-column abort condition (robust_loader.py 463-474):
a registered spec, a nonempty missing set, strict mode. -/
def headerAborts (column_specs : List (String × ColumnSpec)) (fieldnames : List String)
    (strict : Bool) : Bool :=
  !column_specs.isEmpty && !(header_missing column_specs fieldnames).isEmpty && strict

/-- The duplicate-pass guard (robust_loader.py 535): nonempty parsed data and
one of the two registered file names. -/
def dedupApplies (filename : String) (parsed : List Row) : Bool :=
  !parsed.isEmpty
    && (decide (filename = "projections_2025.csv") || decide (filename = "adp0_2025.csv"))

/-- `FileMetadata` (robust_loader.py 96-109) without its pure-I/O provenance
fields (path, sha256, timestamp), which no claim consults. -/
structure FileMetadata where
  row_count : Nat
  column_count : Nat
  parsed_rows : Nat
  quarantined_rows : Nat
  coercion_count : Nat
  null_count : Nat
  duplicate_count : Nat
  exceptions : List ExcEntry
deriving DecidableEq, Repr

/-- `LoadResult` (robust_loader.py 112-120); the two write targets of lines
571-583 appear as explicit sink fields (`none` = nothing written). -/
structure LoadResult where
  success : Bool
  data : List Row
  metadata : FileMetadata
  quarantined : List QRow
  errors : List LoadErr
  warnings : List LoadWarning
  cleanSink : Option (List (List (String × Value)))
  quarantineSink : Option (List QRow)
deriving DecidableEq, Repr

/-- `RobustCSVLoader.load_csv` (robust_loader.py 387-592) for an existing,
already-decoded file: `filename` selects registry behavior, `fieldnames`
is the header, `rows` the data records.  Hashing, encoding and dialect
detection (424-460) touch only I/O and provenance fields and are omitted. -/
def load_csv (column_specs : List (String × ColumnSpec)) (filename : String)
    (strict : Bool) (fieldnames : List String) (rows : List RawRow) : LoadResult :=
  let missing := header_missing column_specs fieldnames
  let extra := header_extra column_specs fieldnames
  -- strict missing-column check raises before any row is read (470-474)
  let headerAbort := headerAborts column_specs fieldnames strict
  -- the strict missing-column raise at 474 skips the extra-column warning
  let warnings0 : List LoadWarning :=
    (if !column_specs.isEmpty && !missing.isEmpty && !strict then
       [.missingColumns missing] else [])
    ++ (if !headerAbort && !column_specs.isEmpty && !extra.isEmpty then
       [.extraColumns extra] else [])
  let lp := if headerAbort then (initialLoop, none)
            else rowsLoop column_specs strict rows 2 initialLoop
  let st := lp.1
  -- the exception caught at line 529: the header ValueError or a row raise
  let abortErr : Option LoadErr :=
    if headerAbort then some (.missingColumns missing)
    else match lp.2 with | some e => some (.rowError e) | none => none
  -- in the header case the message is appended once at 473 and again by the
  -- handler at 531, hence twice in `errors`
  let errors : List LoadErr :=
    (if headerAbort then [.missingColumns missing] else [])
    ++ (match abortErr with | some e => [e] | none => [])
  -- duplicate pass (534-550), only for the two registered files
  let pq :=
    if dedupApplies filename st.parsed then
      let dres := detect_duplicates st.parsed (dedup_key_cols filename)
      (dres.1, st.quarantined
        ++ dres.2.map (fun x => (⟨x.row, .duplicate, [], some x.dupOfRow, some x.dupKey⟩ : QRow)))
    else (st.parsed, st.quarantined)
  let parsed := pq.1
  let quarantined := pq.2
  let warnings := warnings0
    ++ (if quarantined.isEmpty then [] else [LoadWarning.quarantinedRows quarantined.length])
  let metadata : FileMetadata :=
    ⟨st.total_rows, fieldnames.length, parsed.length, quarantined.length,
     st.coercion_count, st.null_count,
     (quarantined.filter (fun q => decide (q.reason = .duplicate))).length,
     st.exceptions.map .field
       ++ (match abortErr with | some e => [.load e] | none => [])⟩
  -- `_write_clean_data` strips underscore-prefixed provenance fields; the
  -- `_row_number` key lives in `Row.rowNumber` here and is absent by
  -- construction
  let cleanSink : Option (List (List (String × Value))) :=
    if !parsed.isEmpty && errors.isEmpty then
      some (parsed.map (fun r => r.fields.filter (fun p => !(leadingUnderscore p.1))))
    else none
  let quarantineSink : Option (List QRow) :=
    if quarantined.isEmpty then none else some quarantined
  ⟨errors.isEmpty, parsed, metadata, quarantined, errors, warnings, cleanSink, quarantineSink⟩

/-- Whether a cell makes `parse_value` raise for its column's spec (the
condition of the `except ValueError` branch at line 505). -/
def colFails (specs : List (String × ColumnSpec)) (cv : String × String) : Bool :=
  match alookup (pyTrim cv.1) specs with
  | some spec => match parse_value cv.2 spec with | .ok _ => false | .error _ => true
  | none => false

/-- Whether any cell of a raw record fails coercion. -/
def rowFails (specs : List (String × ColumnSpec)) (raw : RawRow) : Bool :=
  raw.any (colFails specs)

/-- `PIPELINE_CONFIG` knobs (pipeline.py 51-64). -/
structure PipelineConfig where
  stages : List String
  fail_on_integrity_violation : Bool
  fail_on_validation_error : Bool
  max_quarantine_ratio : ℚ
deriving DecidableEq, Repr

/-- The fixed stage list of `PIPELINE_CONFIG`. -/
def pipelineStages : List String :=
  ["integrity_pre_check", "data_loading", "data_validation",
   "data_transformation", "integrity_post_check", "metadata_generation"]

/-- The pipeline's environment: outcomes of the two external integrity-gate
invocations, and the audit totals produced by the loading stage
(`total_rows_parsed` / `total_rows_quarantined` of the audit report; file
discovery and I/O live outside the embedding). -/
structure PipelineEnv where
  pre_check : Bool
  post_check : Bool
  total_parsed : Nat
  total_quarantined : Nat
deriving DecidableEq, Repr

/-- Errors recorded in `pipeline_metadata['errors']`, as structured data
(the Python strings carry the same information). -/
inductive PErr where
  | integrityCheckFailed (phase : String)
  | preIntegrityFailed
  | postIntegrityFailed
  | quarantineRatioExceeded (observed bound : ℚ)
  | dataLoadingError (inner : PErr)
deriving DecidableEq, Repr

/-- `pipeline_metadata` (pipeline.py 77-87): the audit-trail fields the
claims consult.  `data_stats_set` records that `data_stats` was written;
`finalized` records that the `finally:` block ran (end time and duration
recorded, metadata file written). -/
structure PMeta where
  stages_completed : List String
  stages_failed : List String
  errors : List PErr
  integrity_status : String
  data_stats_set : Bool
  finalized : Bool
deriving DecidableEq, Repr

/-- `DataPipeline.run_integrity_check` (pipeline.py 89-130) with the
subprocess outcome `ok` supplied by the environment. -/
def run_integrity_check (ok : Bool) (phase : String) (md : PMeta) : PMeta × Bool :=
  if ok then ({ md with integrity_status := "verified" }, true)
  else
    ({ md with
        integrity_status := "violated",
        errors := md.errors ++ [PErr.integrityCheckFailed phase] },
     false)

/-- `DataPipeline.load_and_clean_data` (pipeline.py 132-186) after the loader
ran: the quarantine-ratio check.  When the ratio exceeds the bound the
violation is recorded; with `fail_on_validation_error` a `ValueError` is
raised, re-wrapped once by the method's own handler (line 185) and
propagated; otherwise the stats are recorded and the stage succeeds. -/
def load_and_clean_data (cfg : PipelineConfig) (env : PipelineEnv) (md : PMeta) :
    PMeta × Option PErr :=
  if 0 < env.total_parsed then
    if cfg.max_quarantine_ratio < (env.total_quarantined : ℚ) / (env.total_parsed : ℚ) then
      let r := (env.total_quarantined : ℚ) / (env.total_parsed : ℚ)
      let e1 := PErr.quarantineRatioExceeded r cfg.max_quarantine_ratio
      let md1 := { md with errors := md.errors ++ [e1] }
      if cfg.fail_on_validation_error then
        ({ md1 with errors := md1.errors ++ [PErr.dataLoadingError e1] }, some e1)
      else ({ md1 with data_stats_set := true }, none)
    else ({ md with data_stats_set := true }, none)
  else ({ md with data_stats_set := true }, none)

/-- The `try:` block of `run_pipeline` (pipeline.py 241-278): the six stages
in order, each appending to `stages_completed` on completion; a failed
pre/post gate aborts (when `fail_on_integrity_violation`), and a loading
exception propagates. -/
def tryStages (cfg : PipelineConfig) (env : PipelineEnv) (md0 : PMeta) :
    PMeta × Option PErr :=
  let r1 := run_integrity_check env.pre_check "pre" md0
  if cfg.fail_on_integrity_violation && !r1.2 then (r1.1, some .preIntegrityFailed)
  else
    let md1 := { r1.1 with stages_completed := r1.1.stages_completed ++ ["integrity_pre_check"] }
    let r2 := load_and_clean_data cfg env md1
    match r2.2 with
    | some e => (r2.1, some e)
    | none =>
      let md2 := { r2.1 with stages_completed := r2.1.stages_completed ++ ["data_loading"] }
      let md3 := { md2 with stages_completed := md2.stages_completed ++ ["data_validation"] }
      let md4 := { md3 with stages_completed := md3.stages_completed ++ ["data_transformation"] }
      let r5 := run_integrity_check env.post_check "post" md4
      if cfg.fail_on_integrity_violation && !r5.2 then (r5.1, some .postIntegrityFailed)
      else
        let md5 := { r5.1 with stages_completed := r5.1.stages_completed ++ ["integrity_post_check"] }
        let md6 := { md5 with stages_completed := md5.stages_completed ++ ["metadata_generation"] }
        (md6, none)

/-- Result of a run: overall success, the final metadata, and the metadata
file persisted by the `finally:` block (`none` would mean nothing written). -/
structure RunOutcome where
  success : Bool
  metadata : PMeta
  persisted : Option PMeta
deriving DecidableEq, Repr

/-- `DataPipeline.run_pipeline` (pipeline.py 223-328): the staged `try:`,
the `except:` handler recording the exception and computing `stages_failed`
as the configured stages not completed, and the unconditional `finally:`
that records duration and persists the metadata. -/
def run_pipeline (cfg : PipelineConfig) (env : PipelineEnv) : RunOutcome :=
  let md0 : PMeta := ⟨[], [], [], "unknown", false, false⟩
  let t := tryStages cfg env md0
  let handled :=
    match t.2 with
    | none => (t.1, true)
    | some e =>
      let mdE := { t.1 with errors := t.1.errors ++ [e] }
      let failed := cfg.stages.filter (fun s => decide (s ∉ mdE.stages_completed))
      let mdF := if failed.isEmpty then mdE else { mdE with stages_failed := failed }
      (mdF, false)
  let mdFin := { handled.1 with finalized := true }
  ⟨handled.2, mdFin, some mdFin⟩

lemma alookup_append_some {β : Type} {k : String} {l₁ : List (String × β)} {v : β}
    (l₂ : List (String × β)) (h : alookup k l₁ = some v) :
    alookup k (l₁ ++ l₂) = some v := by
  induction l₁ with
  | nil => simp [alookup] at h
  | cons p rest ih =>
    by_cases hp : p.1 = k
    · simp only [alookup, List.cons_append, if_pos hp] at h ⊢
      exact h
    · simp only [alookup, List.cons_append, if_neg hp] at h ⊢
      exact ih h

lemma alookup_append_none {β : Type} {k : String} {l₁ : List (String × β)}
    (l₂ : List (String × β)) (h : alookup k l₁ = none) :
    alookup k (l₁ ++ l₂) = alookup k l₂ := by
  induction l₁ with
  | nil => simp [alookup]
  | cons p rest ih =>
    by_cases hp : p.1 = k
    · simp only [alookup, if_pos hp] at h
      exact absurd h (by simp)
    · simp only [alookup, List.cons_append, if_neg hp] at h ⊢
      exact ih h

lemma aux_getElem?_append_left {α : Type} (l₁ l₂ : List α) (n : Nat)
    (h : n < l₁.length) : (l₁ ++ l₂)[n]? = l₁[n]? := by
  induction l₁ generalizing n with
  | nil => simp at h
  | cons a rest ih =>
    cases n with
    | zero => simp
    | succ m => simp only [List.cons_append, List.getElem?_cons_succ];
                exact ih m (by simpa using h)

lemma aux_getElem?_concat {α : Type} (l : List α) (a : α) :
    (l ++ [a])[l.length]? = some a := by
  induction l with
  | nil => simp
  | cons b rest ih =>
    simp only [List.cons_append, List.length_cons, List.getElem?_cons_succ]
    exact ih

/-- The fold in `detect_duplicates` computes what `dd` computes. -/
lemma foldl_ddStep_eq (cols : List String) :
    ∀ (data : List Row) (seen : List (String × Nat)) (U : List Row) (D : List DupInfo),
      (data.foldl (ddStep cols) ⟨seen, U, D⟩).unique = U ++ (dd cols data seen U.length).1
      ∧ (data.foldl (ddStep cols) ⟨seen, U, D⟩).duplicates = D ++ (dd cols data seen U.length).2 := by
  intro data
  induction data with
  | nil => intro seen U D; simp [dd]
  | cons r rest ih =>
    intro seen U D
    rcases h : alookup (compositeKey cols r) seen with _ | i
    · have hstep : ddStep cols ⟨seen, U, D⟩ r
          = ⟨seen ++ [(compositeKey cols r, U.length + 1)], U ++ [r], D⟩ := by
        simp [ddStep, h]
      obtain ⟨h1, h2⟩ := ih (seen ++ [(compositeKey cols r, U.length + 1)]) (U ++ [r]) D
      rw [List.foldl_cons, hstep]
      constructor
      · rw [h1]; simp [dd, h, List.append_assoc]
      · rw [h2]; simp [dd, h]
    · have hstep : ddStep cols ⟨seen, U, D⟩ r
          = ⟨seen, U, D ++ [⟨r, i, compositeKey cols r⟩]⟩ := by
        simp [ddStep, h]
      obtain ⟨h1, h2⟩ := ih seen U (D ++ [⟨r, i, compositeKey cols r⟩])
      rw [List.foldl_cons, hstep]
      constructor
      · rw [h1]; simp [dd, h]
      · rw [h2]; simp [dd, h, List.append_assoc]

/-- Every input record lands in exactly one of the two outputs. -/
lemma dd_length (cols : List String) :
    ∀ (data : List Row) (seen : List (String × Nat)) (n : Nat),
      (dd cols data seen n).1.length + (dd cols data seen n).2.length = data.length := by
  intro data
  induction data with
  | nil => intro seen n; simp [dd]
  | cons r rest ih =>
    intro seen n
    rcases h : alookup (compositeKey cols r) seen with _ | i
    · simp only [dd, h]; simp [← ih (seen ++ [(compositeKey cols r, n + 1)]) (n + 1)]
      omega
    · simp only [dd, h]; simp [← ih seen n]
      omega

/-- The unique output is a subsequence of the input (original order kept). -/
lemma dd_sublist (cols : List String) :
    ∀ (data : List Row) (seen : List (String × Nat)) (n : Nat),
      (dd cols data seen n).1.Sublist data := by
  intro data
  induction data with
  | nil => intro seen n; simp [dd]
  | cons r rest ih =>
    intro seen n
    rcases h : alookup (compositeKey cols r) seen with _ | i
    · simp only [dd, h]
      exact List.Sublist.cons₂ r (ih (seen ++ [(compositeKey cols r, n + 1)]) (n + 1))
    · simp only [dd, h]
      exact List.Sublist.cons r (ih seen n)

/-- Per-key characterization: among the records of a given composite key,
the first (if its key is not already in `seen`) is kept and the rest are
emitted as duplicates, in input order. -/
lemma dd_filter (cols : List String) (k : String) :
    ∀ (data : List Row) (seen : List (String × Nat)) (n : Nat),
      ((dd cols data seen n).1.filter (fun r => decide (compositeKey cols r = k))
        = if (alookup k seen).isSome then []
          else (data.filter (fun r => decide (compositeKey cols r = k))).take 1)
      ∧ (((dd cols data seen n).2.filter (fun x => decide (x.dupKey = k))).map DupInfo.row
        = if (alookup k seen).isSome then
            data.filter (fun r => decide (compositeKey cols r = k))
          else (data.filter (fun r => decide (compositeKey cols r = k))).drop 1) := by
  intro data
  induction data with
  | nil =>
    intro seen n
    constructor <;> simp [dd]
  | cons r rest ih =>
    intro seen n
    by_cases hk : compositeKey cols r = k
    · subst hk
      rcases h : alookup (compositeKey cols r) seen with _ | i
      · -- first occurrence of this key
        obtain ⟨ih1, ih2⟩ := ih (seen ++ [(compositeKey cols r, n + 1)]) (n + 1)
        have hseen' : (alookup (compositeKey cols r)
            (seen ++ [(compositeKey cols r, n + 1)])).isSome := by
          rw [alookup_append_none _ h]; simp [alookup]
        constructor
        · simp only [dd, h]
          simp [ih1, hseen', h]
        · simp only [dd, h]
          simp [ih2, hseen', h]
      · -- key already seen: the record is a duplicate
        obtain ⟨ih1, ih2⟩ := ih seen n
        have hs : (alookup (compositeKey cols r) seen).isSome := by simp [h]
        constructor
        · simp only [dd, h]
          simp [ih1, hs]
        · simp only [dd, h]
          simp [ih2, hs]
    · rcases h : alookup (compositeKey cols r) seen with _ | i
      · obtain ⟨ih1, ih2⟩ := ih (seen ++ [(compositeKey cols r, n + 1)]) (n + 1)
        have hseen' : alookup k (seen ++ [(compositeKey cols r, n + 1)])
            = alookup k seen := by
          rcases hh : alookup k seen with _ | v
          · rw [alookup_append_none _ hh]; simp [alookup, hk]
          · exact alookup_append_some _ hh
        constructor
        · simp only [dd, h]
          simp [ih1, hseen', hk]
        · simp only [dd, h]
          simp [ih2, hseen', hk]
      · obtain ⟨ih1, ih2⟩ := ih seen n
        constructor
        · simp only [dd, h]
          simp [ih1, hk]
        · simp only [dd, h]
          simp [ih2, hk]

/-- Annotation correctness: every emitted duplicate carries its own composite
key and a 1-based position, in the overall unique output, of a record with
that same key. -/
lemma dd_anns (cols : List String) :
    ∀ (data : List Row) (seen : List (String × Nat)) (U : List Row),
      (∀ k i, alookup k seen = some i →
        ∃ j r₀, U[j]? = some r₀ ∧ i = j + 1 ∧ compositeKey cols r₀ = k) →
      ∀ x ∈ (dd cols data seen U.length).2,
        x.dupKey = compositeKey cols x.row ∧
        ∃ j r₀, (U ++ (dd cols data seen U.length).1)[j]? = some r₀ ∧
          x.dupOfRow = j + 1 ∧ compositeKey cols r₀ = x.dupKey := by
  intro data
  induction data with
  | nil => intro seen U hseen x hx; simp [dd] at hx
  | cons r rest ih =>
    intro seen U hseen x hx
    rcases h : alookup (compositeKey cols r) seen with _ | i
    · -- fresh key: apply the induction hypothesis at U ++ [r]
      simp only [dd, h] at hx
      have hseen' : ∀ k i, alookup k (seen ++ [(compositeKey cols r, U.length + 1)]) = some i →
          ∃ j r₀, (U ++ [r])[j]? = some r₀ ∧ i = j + 1 ∧ compositeKey cols r₀ = k := by
        intro k i hki
        rcases hh : alookup k seen with _ | v
        · rw [alookup_append_none _ hh] at hki
          simp [alookup] at hki
          obtain ⟨hkk, hii⟩ := hki
          refine ⟨U.length, r, aux_getElem?_concat U r, by omega, by rw [hkk]⟩
        · rw [alookup_append_some _ hh] at hki
          injection hki with hvi
          obtain ⟨j, r₀, hj, hi, hkey⟩ := hseen k v hh
          have hjlt : j < U.length := by
            by_contra hge
            rw [List.getElem?_eq_none (by omega)] at hj
            exact absurd hj (by simp)
          refine ⟨j, r₀, ?_, by omega, hkey⟩
          rw [aux_getElem?_append_left U [r] j hjlt]
          exact hj
      have hx' : x ∈ (dd cols rest (seen ++ [(compositeKey cols r, U.length + 1)])
          ((U ++ [r]).length)).2 := by
        simpa using hx
      obtain ⟨hkeq, j, r₀, hj, hi, hkey⟩ :=
        ih (seen ++ [(compositeKey cols r, U.length + 1)]) (U ++ [r]) hseen' x hx'
      refine ⟨hkeq, j, r₀, ?_, hi, hkey⟩
      simp only [dd, h]
      simpa [List.append_assoc] using hj
    · -- seen key: either the new duplicate or one from the tail
      simp only [dd, h, List.mem_cons] at hx
      rcases hx with hx | hx
      · subst hx
        obtain ⟨j, r₀, hj, hi, hkey⟩ := hseen (compositeKey cols r) i h
        have hjlt : j < U.length := by
          by_contra hge
          rw [List.getElem?_eq_none (by omega)] at hj
          exact absurd hj (by simp)
        refine ⟨rfl, j, r₀, ?_, hi, hkey⟩
        simp only [dd, h]
        rw [aux_getElem?_append_left U _ j hjlt]
        exact hj
      · have := ih seen U hseen x hx
        obtain ⟨hkeq, j, r₀, hj, hi, hkey⟩ := this
        refine ⟨hkeq, j, r₀, ?_, hi, hkey⟩
        rw [← hj]
        simp only [dd, h]

/-- C1: For every record list and key-column list given to the Duplicate
Detector, and for every composite key (lower-cased, trimmed string forms of
the key columns joined by `'|'`): exactly the first record of each key group,
in input order, is retained in the unique output (which is a subsequence of
the input, hence in original order), the remaining records of the group are
placed in the duplicates output in order, and every duplicate is annotated
with the 1-based row number, within the unique output, of the first record
of its group (the value `seen_keys` stores at first insertion). -/
theorem claim_C1 (data : List Row) (cols : List String) (k : String) :
    ((detect_duplicates data cols).1.filter (fun r => decide (compositeKey cols r = k))
      = (data.filter (fun r => decide (compositeKey cols r = k))).take 1)
    ∧ (((detect_duplicates data cols).2.filter (fun x => decide (x.dupKey = k))).map DupInfo.row
      = (data.filter (fun r => decide (compositeKey cols r = k))).drop 1)
    ∧ (∀ x ∈ (detect_duplicates data cols).2,
        x.dupKey = compositeKey cols x.row ∧
        ∃ j r₀, (detect_duplicates data cols).1[j]? = some r₀ ∧
          x.dupOfRow = j + 1 ∧ compositeKey cols r₀ = x.dupKey)
    ∧ (detect_duplicates data cols).1.Sublist data := by
  obtain ⟨hu, hd⟩ := foldl_ddStep_eq cols data [] [] []
  have hu' : (detect_duplicates data cols).1 = (dd cols data [] 0).1 := by
    simpa [detect_duplicates] using hu
  have hd' : (detect_duplicates data cols).2 = (dd cols data [] 0).2 := by
    simpa [detect_duplicates] using hd
  obtain ⟨hf1, hf2⟩ := dd_filter cols k data [] 0
  refine ⟨?_, ?_, ?_, ?_⟩
  · rw [hu', hf1]; simp [alookup]
  · rw [hd', hf2]; simp [alookup]
  · intro x hx
    rw [hd'] at hx
    have := dd_anns cols data [] [] (by intro k i h; simp [alookup] at h) x (by simpa using hx)
    obtain ⟨h1, j, r₀, hj, h2, h3⟩ := this
    exact ⟨h1, j, r₀, by rw [hu']; simpa using hj, h2, h3⟩
  · rw [hu']; exact dd_sublist cols data [] 0

/-- Concrete instantiation of `claim_C1`: three records, the first and third
sharing a key; the filter characterization is obtained from the theorem and
the evaluated outputs confirm it on this input. -/
theorem claim_C1_witness :
    (((detect_duplicates
        [⟨2, [("n", .str "A")]⟩, ⟨3, [("n", .str "B")]⟩, ⟨4, [("n", .str "a ")]⟩]
        ["n"]).1.filter (fun r => decide (compositeKey ["n"] r = "a")))
      = (([⟨2, [("n", .str "A")]⟩, ⟨3, [("n", .str "B")]⟩, ⟨4, [("n", .str "a ")]⟩] :
          List Row).filter (fun r => decide (compositeKey ["n"] r = "a"))).take 1)
    ∧ ((detect_duplicates
        [⟨2, [("n", .str "A")]⟩, ⟨3, [("n", .str "B")]⟩, ⟨4, [("n", .str "a ")]⟩]
        ["n"]).2.map DupInfo.dupOfRow = [1]) := by
  refine ⟨(claim_C1 _ _ _).1, ?_⟩
  decide

lemma processColumn_snd_of_ok (specs : List (String × ColumnSpec)) (strict : Bool)
    (n : Nat) (acc : RowAcc) (cv : String × String) (h : colFails specs cv = false) :
    (processColumn specs strict n acc cv).2 = none := by
  rcases hl : alookup (pyTrim cv.1) specs with _ | spec
  · simp [processColumn, hl]
  · rcases hp : parse_value cv.2 spec with e | pv
    · simp [colFails, hl, hp] at h
    · simp [processColumn, hl, hp]

lemma processColumn_snd_of_fail (specs : List (String × ColumnSpec))
    (n : Nat) (acc : RowAcc) (cv : String × String) (h : colFails specs cv = true) :
    ∃ acc' e, processColumn specs true n acc cv = (acc', some e) := by
  rcases hl : alookup (pyTrim cv.1) specs with _ | spec
  · simp [colFails, hl] at h
  · rcases hp : parse_value cv.2 spec with e | pv
    · refine ⟨{ acc with
          rowExceptions := acc.rowExceptions ++ [⟨n, pyTrim cv.1, cv.2, e⟩],
          rowValid := false }, e, ?_⟩
      simp [processColumn, hl, hp]
    · simp [colFails, hl, hp] at h

lemma processColumn_lenient (specs : List (String × ColumnSpec))
    (n : Nat) (acc : RowAcc) (cv : String × String) :
    (processColumn specs false n acc cv).2 = none := by
  rcases hl : alookup (pyTrim cv.1) specs with _ | spec
  · simp [processColumn, hl]
  · rcases hp : parse_value cv.2 spec with e | pv
    · simp [processColumn, hl, hp]
    · simp [processColumn, hl, hp]

lemma processRowAux_snd_none (specs : List (String × ColumnSpec)) (strict : Bool) :
    ∀ (raw : List (String × String)) (n : Nat) (acc : RowAcc),
      raw.any (colFails specs) = false →
      (processRowAux specs strict n raw acc).2 = none := by
  intro raw
  induction raw with
  | nil => intro n acc _; simp [processRowAux]
  | cons cv rest ih =>
    intro n acc h
    rw [List.any_cons, Bool.or_eq_false_iff] at h
    obtain ⟨h1, h2⟩ := h
    have hc := processColumn_snd_of_ok specs strict n acc cv h1
    simp only [processRowAux]
    rcases hpc : processColumn specs strict n acc cv with ⟨acc', oe⟩
    rw [hpc] at hc
    simp only at hc
    subst hc
    exact ih n acc' h2

lemma processRowAux_snd_some (specs : List (String × ColumnSpec)) :
    ∀ (raw : List (String × String)) (n : Nat) (acc : RowAcc),
      raw.any (colFails specs) = true →
      ∃ acc' e, processRowAux specs true n raw acc = (acc', some e) := by
  intro raw
  induction raw with
  | nil => intro n acc h; simp at h
  | cons cv rest ih =>
    intro n acc h
    by_cases h1 : colFails specs cv = true
    · obtain ⟨acc', e, hpc⟩ := processColumn_snd_of_fail specs n acc cv h1
      exact ⟨acc', e, by simp [processRowAux, hpc]⟩
    · have h1' : colFails specs cv = false := by simpa using h1
      rw [List.any_cons, h1'] at h
      simp only [Bool.false_or] at h
      have hc := processColumn_snd_of_ok specs true n acc cv h1'
      simp only [processRowAux]
      rcases hpc : processColumn specs true n acc cv with ⟨acc', oe⟩
      rw [hpc] at hc
      simp only at hc
      subst hc
      exact ih n acc' h

lemma processRowAux_lenient (specs : List (String × ColumnSpec)) :
    ∀ (raw : List (String × String)) (n : Nat) (acc : RowAcc),
      (processRowAux specs false n raw acc).2 = none := by
  intro raw
  induction raw with
  | nil => intro n acc; simp [processRowAux]
  | cons cv rest ih =>
    intro n acc
    have hc := processColumn_lenient specs n acc cv
    simp only [processRowAux]
    rcases hpc : processColumn specs false n acc cv with ⟨acc', oe⟩
    rw [hpc] at hc
    simp only at hc
    subst hc
    exact ih n acc'

lemma rowsLoop_cons_none (specs : List (String × ColumnSpec)) (strict : Bool)
    (raw : RawRow) (rest : List RawRow) (n : Nat) (st : LoopState) (acc : RowAcc)
    (hp : processRowAux specs strict n raw ⟨[], [], true, 0, 0⟩ = (acc, none)) :
    rowsLoop specs strict (raw :: rest) n st =
      (if acc.rowValid then
        rowsLoop specs strict rest (n + 1)
          ⟨st.total_rows + 1, st.parsed ++ [⟨n, acc.fields⟩], st.quarantined,
           st.coercion_count + acc.coercions, st.null_count + acc.nulls, st.exceptions⟩
      else
        rowsLoop specs strict rest (n + 1)
          ⟨st.total_rows + 1, st.parsed,
           st.quarantined ++ [⟨⟨n, acc.fields⟩, .validation_failed, acc.rowExceptions, none, none⟩],
           st.coercion_count + acc.coercions, st.null_count + acc.nulls,
           st.exceptions ++ acc.rowExceptions⟩) := by
  simp [rowsLoop, hp]

lemma rowsLoop_cons_some (specs : List (String × ColumnSpec)) (strict : Bool)
    (raw : RawRow) (rest : List RawRow) (n : Nat) (st : LoopState) (acc : RowAcc)
    (e : ParseErr)
    (hp : processRowAux specs strict n raw ⟨[], [], true, 0, 0⟩ = (acc, some e)) :
    rowsLoop specs strict (raw :: rest) n st =
      (⟨st.total_rows + 1, st.parsed, st.quarantined,
        st.coercion_count + acc.coercions, st.null_count + acc.nulls, st.exceptions⟩,
       some e) := by
  simp [rowsLoop, hp]

/-- In lenient mode the row loop never aborts. -/
lemma rowsLoop_lenient (specs : List (String × ColumnSpec)) :
    ∀ (rows : List RawRow) (n : Nat) (st : LoopState),
      (rowsLoop specs false rows n st).2 = none := by
  intro rows
  induction rows with
  | nil => intro n st; simp [rowsLoop]
  | cons raw rest ih =>
    intro n st
    rcases hp : processRowAux specs false n raw ⟨[], [], true, 0, 0⟩ with ⟨acc, oe⟩
    have hpr := processRowAux_lenient specs raw n ⟨[], [], true, 0, 0⟩
    rw [hp] at hpr
    simp only at hpr
    subst hpr
    rw [rowsLoop_cons_none specs false raw rest n st acc hp]
    by_cases hv : acc.rowValid = true
    · rw [if_pos hv]; exact ih (n + 1) _
    · rw [if_neg hv]; exact ih (n + 1) _

/-- Row-loop partition invariant: when the loop completes without abort, the
increase in row count equals the increase in parsed plus quarantined. -/
lemma rowsLoop_partition (specs : List (String × ColumnSpec)) (strict : Bool) :
    ∀ (rows : List RawRow) (n : Nat) (st : LoopState),
      (rowsLoop specs strict rows n st).2 = none →
      (rowsLoop specs strict rows n st).1.total_rows + st.parsed.length + st.quarantined.length
        = st.total_rows + (rowsLoop specs strict rows n st).1.parsed.length
          + (rowsLoop specs strict rows n st).1.quarantined.length := by
  intro rows
  induction rows with
  | nil => intro n st _; simp [rowsLoop]
  | cons raw rest ih =>
    intro n st h
    rcases hp : processRowAux specs strict n raw ⟨[], [], true, 0, 0⟩ with ⟨acc, oe⟩
    rcases oe with _ | e
    · rw [rowsLoop_cons_none specs strict raw rest n st acc hp] at h ⊢
      by_cases hv : acc.rowValid = true
      · rw [if_pos hv] at h ⊢
        have := ih (n + 1) _ h
        simp at this ⊢
        omega
      · rw [if_neg hv] at h ⊢
        have := ih (n + 1) _ h
        simp at this ⊢
        omega
    · rw [rowsLoop_cons_some specs strict raw rest n st acc e hp] at h
      simp at h

/-- A strict-mode loop given clean rows, then a failing row, aborts exactly
at the failing row: the state has read the clean prefix plus one row, and an
exception is reported (later rows are never visited). -/
lemma rowsLoop_abort (specs : List (String × ColumnSpec)) :
    ∀ (rows₁ : List RawRow), (∀ r ∈ rows₁, rowFails specs r = false) →
    ∀ (bad : RawRow), rowFails specs bad = true →
    ∀ (rows₂ : List RawRow) (n : Nat) (st : LoopState),
      ∃ st' e, rowsLoop specs true (rows₁ ++ bad :: rows₂) n st = (st', some e)
        ∧ st'.total_rows = st.total_rows + rows₁.length + 1 := by
  intro rows₁
  induction rows₁ with
  | nil =>
    intro _ bad hbad rows₂ n st
    obtain ⟨acc', e, hpr⟩ := processRowAux_snd_some specs bad n ⟨[], [], true, 0, 0⟩ hbad
    refine ⟨⟨st.total_rows + 1, st.parsed, st.quarantined,
        st.coercion_count + acc'.coercions, st.null_count + acc'.nulls, st.exceptions⟩,
      e, ?_, ?_⟩
    · rw [List.nil_append]
      exact rowsLoop_cons_some specs true bad rows₂ n st acc' e hpr
    · simp
  | cons r rows₁' ih =>
    intro hok bad hbad rows₂ n st
    have hr : rowFails specs r = false := hok r (by simp)
    have hok' : ∀ x ∈ rows₁', rowFails specs x = false := by
      intro x hx; exact hok x (by simp [hx])
    rcases hp : processRowAux specs true n r ⟨[], [], true, 0, 0⟩ with ⟨acc, oe⟩
    have hpr := processRowAux_snd_none specs true r n ⟨[], [], true, 0, 0⟩ hr
    rw [hp] at hpr
    simp only at hpr
    subst hpr
    rw [List.cons_append, rowsLoop_cons_none specs true r (rows₁' ++ bad :: rows₂) n st acc hp]
    by_cases hv : acc.rowValid = true
    · rw [if_pos hv]
      obtain ⟨st', e, heq, htot⟩ := ih hok' bad hbad rows₂ (n + 1) _
      refine ⟨st', e, heq, ?_⟩
      simp at htot ⊢
      omega
    · rw [if_neg hv]
      obtain ⟨st', e, heq, htot⟩ := ih hok' bad hbad rows₂ (n + 1) _
      refine ⟨st', e, heq, ?_⟩
      simp at htot ⊢
      omega

/-- A non-aborting row loop reads exactly the given rows. -/
lemma rowsLoop_total (specs : List (String × ColumnSpec)) (strict : Bool) :
    ∀ (rows : List RawRow) (n : Nat) (st : LoopState),
      (rowsLoop specs strict rows n st).2 = none →
      (rowsLoop specs strict rows n st).1.total_rows = st.total_rows + rows.length := by
  intro rows
  induction rows with
  | nil => intro n st _; simp [rowsLoop]
  | cons raw rest ih =>
    intro n st h
    rcases hp : processRowAux specs strict n raw ⟨[], [], true, 0, 0⟩ with ⟨acc, oe⟩
    rcases oe with _ | e
    · rw [rowsLoop_cons_none specs strict raw rest n st acc hp] at h ⊢
      by_cases hv : acc.rowValid = true
      · rw [if_pos hv] at h ⊢
        have := ih (n + 1) _ h
        simp at this ⊢
        omega
      · rw [if_neg hv] at h ⊢
        have := ih (n + 1) _ h
        simp at this ⊢
        omega
    · rw [rowsLoop_cons_some specs strict raw rest n st acc e hp] at h
      simp at h

/-- The duplicate pass moves records, never invents or loses them. -/
lemma detect_duplicates_length (data : List Row) (cols : List String) :
    (detect_duplicates data cols).1.length + (detect_duplicates data cols).2.length
      = data.length := by
  obtain ⟨hu, hd⟩ := foldl_ddStep_eq cols data [] [] []
  simp only [List.nil_append, List.length_nil] at hu hd
  simp only [detect_duplicates, hu, hd]
  exact dd_length cols data [] 0

/-- C2: for every file load whose row loop ran to completion (no recorded
load error — in particular every lenient-mode load, with or without failing
rows, and loads with duplicates), the accepted plus quarantined counts in
the file's metadata equal the number of data rows read; no row is lost or
double-counted. -/
theorem claim_C2 (column_specs : List (String × ColumnSpec)) (filename : String)
    (strict : Bool) (fieldnames : List String) (rows : List RawRow)
    (h : (load_csv column_specs filename strict fieldnames rows).errors = []) :
    (load_csv column_specs filename strict fieldnames rows).metadata.parsed_rows
      + (load_csv column_specs filename strict fieldnames rows).metadata.quarantined_rows
      = (load_csv column_specs filename strict fieldnames rows).metadata.row_count := by
  by_cases hha : headerAborts column_specs fieldnames strict = true
  · exfalso
    simp only [load_csv, hha] at h
    simp at h
  · have hb : headerAborts column_specs fieldnames strict = false := by
      simpa using hha
    rcases hlp : (rowsLoop column_specs strict rows 2 initialLoop).2 with _ | e
    · have hpart := rowsLoop_partition column_specs strict rows 2 initialLoop hlp
      rw [show initialLoop.parsed = [] from rfl, show initialLoop.quarantined = [] from rfl,
        show initialLoop.total_rows = 0 from rfl] at hpart
      simp only [List.length_nil] at hpart
      by_cases hdd : dedupApplies filename
          (rowsLoop column_specs strict rows 2 initialLoop).1.parsed = true
      · have hlen := detect_duplicates_length
          (rowsLoop column_specs strict rows 2 initialLoop).1.parsed
          (dedup_key_cols filename)
        simp [load_csv, hb, hlp, hdd]
        omega
      · have hdd' : dedupApplies filename
            (rowsLoop column_specs strict rows 2 initialLoop).1.parsed = false := by
          simpa using hdd
        simp [load_csv, hb, hlp, hdd']
        omega
    · exfalso
      simp [load_csv, hb, hlp] at h

/-- Concrete instantiation of `claim_C2`: a lenient `projections_2025.csv`
load with one accepted row, one duplicate and one failing row — 1 + 2 = 3
rows read. -/
theorem claim_C2_witness :
    ((load_csv [("playerName", ⟨"playerName", .str, false, none⟩)] "projections_2025.csv"
        false ["playerName"]
        [[("playerName", "Tom")], [("playerName", "tom ")], [("playerName", "")]]).errors = [])
    ∧ (load_csv [("playerName", ⟨"playerName", .str, false, none⟩)] "projections_2025.csv"
        false ["playerName"]
        [[("playerName", "Tom")], [("playerName", "tom ")], [("playerName", "")]]).metadata.parsed_rows
      + (load_csv [("playerName", ⟨"playerName", .str, false, none⟩)] "projections_2025.csv"
        false ["playerName"]
        [[("playerName", "Tom")], [("playerName", "tom ")], [("playerName", "")]]).metadata.quarantined_rows
      = (load_csv [("playerName", ⟨"playerName", .str, false, none⟩)] "projections_2025.csv"
        false ["playerName"]
        [[("playerName", "Tom")], [("playerName", "tom ")], [("playerName", "")]]).metadata.row_count :=
  ⟨by decide, claim_C2 _ _ _ _ _ (by decide)⟩

/-- C5: in strict mode the first per-row coercion failure aborts the file
load immediately — rows after the failing one are never read, the result is
failed, and nothing is committed to the clean-data sink (the partial
accepted output is discarded); and a file missing a required column in
strict mode returns a failed result with zero rows written to either sink. -/
theorem claim_C5 :
    (∀ (column_specs : List (String × ColumnSpec)) (filename : String)
        (fieldnames : List String) (rows₁ : List RawRow) (bad : RawRow) (rows₂ : List RawRow),
      header_missing column_specs fieldnames = [] →
      (∀ r ∈ rows₁, rowFails column_specs r = false) →
      rowFails column_specs bad = true →
      (load_csv column_specs filename true fieldnames (rows₁ ++ bad :: rows₂)).success = false
      ∧ (load_csv column_specs filename true fieldnames (rows₁ ++ bad :: rows₂)).cleanSink = none
      ∧ (load_csv column_specs filename true fieldnames (rows₁ ++ bad :: rows₂)).metadata.row_count
          = rows₁.length + 1)
    ∧ (∀ (column_specs : List (String × ColumnSpec)) (filename : String)
        (fieldnames : List String) (rows : List RawRow),
      column_specs ≠ [] →
      header_missing column_specs fieldnames ≠ [] →
      (load_csv column_specs filename true fieldnames rows).success = false
      ∧ (load_csv column_specs filename true fieldnames rows).cleanSink = none
      ∧ (load_csv column_specs filename true fieldnames rows).quarantineSink = none
      ∧ (load_csv column_specs filename true fieldnames rows).metadata.parsed_rows = 0
      ∧ (load_csv column_specs filename true fieldnames rows).metadata.quarantined_rows = 0
      ∧ (load_csv column_specs filename true fieldnames rows).metadata.row_count = 0) := by
  constructor
  · intro column_specs filename fieldnames rows₁ bad rows₂ hmiss hok hbad
    have hb : headerAborts column_specs fieldnames true = false := by
      simp [headerAborts, hmiss]
    obtain ⟨st', e, heq, htot⟩ :=
      rowsLoop_abort column_specs rows₁ hok bad hbad rows₂ 2 initialLoop
    rw [show initialLoop.total_rows = 0 from rfl] at htot
    refine ⟨?_, ?_, ?_⟩
    · simp [load_csv, hb, heq]
    · simp [load_csv, hb, heq]
    · simp [load_csv, hb, heq]
      omega
  · intro column_specs filename fieldnames rows hne hmiss
    have hb : headerAborts column_specs fieldnames true = true := by
      simp [headerAborts, List.isEmpty_iff, hne, hmiss]
    refine ⟨?_, ?_, ?_, ?_, ?_, ?_⟩ <;>
      simp [load_csv, hb, initialLoop, dedupApplies]

/-- Concrete instantiation of `claim_C5`: a strict load aborting on its
second row (the third row is never read), and a strict load of a file whose
header lacks the required column `B`. -/
theorem claim_C5_witness :
    ((load_csv [("A", ⟨"A", .int, false, none⟩)] "f.csv" true ["A"]
        ([[("A", "1")]] ++ [("A", "x")] :: [[("A", "2")]])).success = false
      ∧ (load_csv [("A", ⟨"A", .int, false, none⟩)] "f.csv" true ["A"]
        ([[("A", "1")]] ++ [("A", "x")] :: [[("A", "2")]])).cleanSink = none
      ∧ (load_csv [("A", ⟨"A", .int, false, none⟩)] "f.csv" true ["A"]
        ([[("A", "1")]] ++ [("A", "x")] :: [[("A", "2")]])).metadata.row_count = 2)
    ∧ ((load_csv [("B", ⟨"B", .str, false, none⟩)] "f.csv" true ["A"]
        [[("A", "1")]]).success = false
      ∧ (load_csv [("B", ⟨"B", .str, false, none⟩)] "f.csv" true ["A"]
        [[("A", "1")]]).cleanSink = none
      ∧ (load_csv [("B", ⟨"B", .str, false, none⟩)] "f.csv" true ["A"]
        [[("A", "1")]]).quarantineSink = none
      ∧ (load_csv [("B", ⟨"B", .str, false, none⟩)] "f.csv" true ["A"]
        [[("A", "1")]]).metadata.parsed_rows = 0
      ∧ (load_csv [("B", ⟨"B", .str, false, none⟩)] "f.csv" true ["A"]
        [[("A", "1")]]).metadata.quarantined_rows = 0
      ∧ (load_csv [("B", ⟨"B", .str, false, none⟩)] "f.csv" true ["A"]
        [[("A", "1")]]).metadata.row_count = 0) :=
  ⟨claim_C5.1 _ _ _ _ _ _ (by decide) (by decide) (by decide),
   claim_C5.2 _ _ _ _ (by decide) (by decide)⟩

/-- C7 as stated is false on one point: an extra (unregistered) column's
value is passed through as a trimmed string only when non-empty; the empty
string is falsy in `str(value).strip() if value else None` and becomes null
rather than the trimmed string `""`.  Concrete input: lenient load, spec for
`A` only, extra column `B` carrying `""`. -/
theorem claim_C7_counterexample :
    ((load_csv [("A", ⟨"A", .str, false, none⟩)] "f.csv" false ["A", "B"]
        [[("A", "x"), ("B", "")]]).data
      = [⟨2, [("A", .str "x"), ("B", .null)]⟩])
    ∧ Value.null ≠ Value.str (pyTrim "") := by
  decide

/-- C7 (amended): with a registered spec, missing columns (expected minus
actual) abort a strict load with an error before any row is read, are a
warning in lenient mode with every row still processed; extra columns
(actual minus expected) are only ever a warning when the load is not
aborted, and a cell of an unregistered column never fails: it is stored as
its trimmed string when the raw value is non-empty, and as null when the
raw value is empty. -/
theorem claim_C7_amended :
    (∀ (column_specs : List (String × ColumnSpec)) (filename : String)
        (fieldnames : List String) (rows : List RawRow),
      column_specs ≠ [] →
      header_missing column_specs fieldnames ≠ [] →
      (load_csv column_specs filename true fieldnames rows).success = false
      ∧ LoadErr.missingColumns (header_missing column_specs fieldnames)
          ∈ (load_csv column_specs filename true fieldnames rows).errors
      ∧ (load_csv column_specs filename true fieldnames rows).metadata.row_count = 0)
    ∧ (∀ (column_specs : List (String × ColumnSpec)) (filename : String)
        (fieldnames : List String) (rows : List RawRow),
      column_specs ≠ [] →
      header_missing column_specs fieldnames ≠ [] →
      LoadWarning.missingColumns (header_missing column_specs fieldnames)
          ∈ (load_csv column_specs filename false fieldnames rows).warnings
      ∧ (load_csv column_specs filename false fieldnames rows).metadata.row_count
          = rows.length)
    ∧ (∀ (column_specs : List (String × ColumnSpec)) (filename : String)
        (fieldnames : List String) (rows : List RawRow),
      column_specs ≠ [] →
      header_extra column_specs fieldnames ≠ [] →
      LoadWarning.extraColumns (header_extra column_specs fieldnames)
          ∈ (load_csv column_specs filename false fieldnames rows).warnings)
    ∧ (∀ (specs : List (String × ColumnSpec)) (strict : Bool) (n : Nat)
        (acc : RowAcc) (c v : String),
      alookup (pyTrim c) specs = none →
      processColumn specs strict n acc (c, v)
        = ({ acc with fields := acc.fields
              ++ [(pyTrim c, if v = "" then Value.null else .str (pyTrim v))] }, none)) := by
  refine ⟨?_, ?_, ?_, ?_⟩
  · intro column_specs filename fieldnames rows hne hmiss
    have hb : headerAborts column_specs fieldnames true = true := by
      simp [headerAborts, List.isEmpty_iff, hne, hmiss]
    refine ⟨?_, ?_, ?_⟩ <;> simp [load_csv, hb, initialLoop]
  · intro column_specs filename fieldnames rows hne hmiss
    have hb : headerAborts column_specs fieldnames false = false := by
      simp [headerAborts]
    have hlp := rowsLoop_lenient column_specs rows 2 initialLoop
    constructor
    · simp [load_csv, hb, List.isEmpty_iff, hne, hmiss]
    · have htot := rowsLoop_total column_specs false rows 2 initialLoop hlp
      rw [show initialLoop.total_rows = 0 from rfl] at htot
      simp [load_csv, hb, hlp, htot]
  · intro column_specs filename fieldnames rows hne hextra
    have hb : headerAborts column_specs fieldnames false = false := by
      simp [headerAborts]
    simp [load_csv, hb, List.isEmpty_iff, hne, hextra]
  · intro specs strict n acc c v hl
    simp [processColumn, hl]

/-- Concrete instantiation of `claim_C7_amended` on small loads exercising a
missing column (strict and lenient) and an extra column. -/
theorem claim_C7_witness :
    ((load_csv [("B", ⟨"B", .str, true, none⟩)] "g.csv" true ["A"]
        [[("A", "1")]]).success = false
      ∧ LoadErr.missingColumns (header_missing [("B", ⟨"B", .str, true, none⟩)] ["A"])
          ∈ (load_csv [("B", ⟨"B", .str, true, none⟩)] "g.csv" true ["A"]
              [[("A", "1")]]).errors
      ∧ (load_csv [("B", ⟨"B", .str, true, none⟩)] "g.csv" true ["A"]
          [[("A", "1")]]).metadata.row_count = 0)
    ∧ (LoadWarning.missingColumns (header_missing [("B", ⟨"B", .str, true, none⟩)] ["A"])
          ∈ (load_csv [("B", ⟨"B", .str, true, none⟩)] "g.csv" false ["A"]
              [[("A", "1")]]).warnings
      ∧ (load_csv [("B", ⟨"B", .str, true, none⟩)] "g.csv" false ["A"]
          [[("A", "1")]]).metadata.row_count = [[("A", "1")]].length)
    ∧ (LoadWarning.extraColumns (header_extra [("A", ⟨"A", .str, false, none⟩)] ["A", "B"])
          ∈ (load_csv [("A", ⟨"A", .str, false, none⟩)] "f.csv" false ["A", "B"]
              [[("A", "x"), ("B", "")]]).warnings) :=
  ⟨claim_C7_amended.1 _ _ _ _ (by decide) (by decide),
   claim_C7_amended.2.1 _ _ _ _ (by decide) (by decide),
   claim_C7_amended.2.2.1 _ _ _ _ (by decide) (by decide)⟩

/-- C4: when, after the loading stage, the quarantine ratio exceeds
`maxQuarantineRatio` and `failOnValidationError` is set (and the pre gate
let the run reach loading), the run reports overall failure with the
quarantine-ratio violation in its error list, and the finalization step
still executes: the run metadata — duration recorded, stages
completed/failed, errors — is persisted despite the failure. -/
theorem claim_C4 (cfg : PipelineConfig) (env : PipelineEnv)
    (hstages : cfg.stages = pipelineStages)
    (hpre : env.pre_check = true)
    (hparsed : 0 < env.total_parsed)
    (hratio : cfg.max_quarantine_ratio
      < (env.total_quarantined : ℚ) / (env.total_parsed : ℚ))
    (hfail : cfg.fail_on_validation_error = true) :
    (run_pipeline cfg env).success = false
    ∧ PErr.quarantineRatioExceeded ((env.total_quarantined : ℚ) / (env.total_parsed : ℚ))
        cfg.max_quarantine_ratio ∈ (run_pipeline cfg env).metadata.errors
    ∧ (run_pipeline cfg env).persisted = some (run_pipeline cfg env).metadata
    ∧ (run_pipeline cfg env).metadata.finalized = true
    ∧ (run_pipeline cfg env).metadata.stages_completed = ["integrity_pre_check"]
    ∧ "data_loading" ∈ (run_pipeline cfg env).metadata.stages_failed := by
  refine ⟨?_, ?_, ?_, ?_, ?_, ?_⟩ <;>
    simp [run_pipeline, tryStages, run_integrity_check, load_and_clean_data,
      hstages, hpre, hparsed, hratio, hfail, pipelineStages]

/-- Concrete instantiation of `claim_C4`: the spec's scenario — 15 of 100
rows quarantined against a 10% ceiling with strict validation. -/
theorem claim_C4_witness :
    (run_pipeline ⟨pipelineStages, true, true, 1/10⟩ ⟨true, true, 100, 15⟩).success = false
    ∧ (run_pipeline ⟨pipelineStages, true, true, 1/10⟩ ⟨true, true, 100, 15⟩).persisted
        = some (run_pipeline ⟨pipelineStages, true, true, 1/10⟩ ⟨true, true, 100, 15⟩).metadata
    ∧ (run_pipeline ⟨pipelineStages, true, true, 1/10⟩ ⟨true, true, 100, 15⟩).metadata.finalized
        = true
    ∧ "data_loading" ∈ (run_pipeline ⟨pipelineStages, true, true, 1/10⟩
        ⟨true, true, 100, 15⟩).metadata.stages_failed :=
  ⟨(claim_C4 _ _ rfl rfl (by decide) (by norm_num) rfl).1,
   (claim_C4 _ _ rfl rfl (by decide) (by norm_num) rfl).2.2.1,
   (claim_C4 _ _ rfl rfl (by decide) (by norm_num) rfl).2.2.2.1,
   (claim_C4 _ _ rfl rfl (by decide) (by norm_num) rfl).2.2.2.2.2⟩

/-- C3 as stated is false on the division step: the v1 coercer's float path
strips the percent sign but parses the bare number — `"50%"` for a nullable
float column yields 50, not 50/100. -/
theorem claim_C3_counterexample :
    parse_value "50%" ⟨"p", .float, true, none⟩ = .ok (.num 50, false)
    ∧ (50 : ℚ) ≠ mkRat 50 100 := by
  decide

/-- C3 (amended): the v1 coercer strips `','` and `'$'` for integer columns
and `','`, `'$'`, `'%'` for float columns before the numeric parse, but a
percent-signed value is parsed as the bare number, not divided by 100 (and
for an integer column the unstripped `'%'` makes the parse fail instead);
only the v2 loader's schemaless `parse_value` divides a trailing-percent
number by 100, and it strips no thousands separators or currency symbols. -/
theorem claim_C3_amended :
    (∀ (nm : String) (nb : Bool),
      parse_value "50%" ⟨nm, .float, nb, none⟩ = .ok (.num 50, false))
    ∧ parse_value "$1,234.5" ⟨"c", .float, false, none⟩ = .ok (.num (mkRat 2469 2), false)
    ∧ parse_value "$1,234" ⟨"c", .int, false, none⟩ = .ok (.num 1234, false)
    ∧ parse_value "20%" ⟨"i", .int, true, none⟩ = .ok (.null, true)
    ∧ parse_value_v2 "50%" = .num (mkRat 1 2)
    ∧ parse_value_v2 "$1,234" = .str "$1,234" := by
  refine ⟨?_, by decide, by decide, by decide, by decide, by decide⟩
  intro nm nb
  rfl

/-- C6 as stated is false: recognition is by an explicit spelling set, not
case-insensitively — the lower-case variant `"none"` of the claimed token
`none` is not in `NA_TOKENS`, so a nullable string column receives the
string `"none"` rather than null. -/
theorem claim_C6_counterexample :
    parse_value "none" ⟨"x", .str, true, none⟩ = .ok (.str "none", false)
    ∧ parse_value "none" ⟨"x", .str, true, none⟩ ≠ .ok (.null, false)
    ∧ parse_value "none" ⟨"x", .str, true, none⟩ ≠ .ok (.null, true) := by
  decide

/-- C6 (amended): null-token recognition matches the fixed spelling set
`NA_TOKENS` (on the raw or trimmed value) — not arbitrary case variants:
every listed spelling maps to null when the column is nullable and fails
with a required-value-missing error when it is not, while unlisted case
variants such as `"na"` or `"Null"` are parsed as ordinary values. -/
theorem claim_C6_amended :
    (∀ (s : String) (spec : ColumnSpec),
      s ∈ NA_TOKENS ∨ pyTrim s ∈ NA_TOKENS →
      parse_value s spec
        = if spec.nullable then .ok (.null, false)
          else .error (.requiredValueMissing spec.name))
    ∧ parse_value "na" ⟨"x", .str, true, none⟩ = .ok (.str "na", false)
    ∧ parse_value "Null" ⟨"x", .str, true, none⟩ = .ok (.str "Null", false) := by
  refine ⟨?_, by decide, by decide⟩
  intro s spec h
  simp [parse_value, h]

/-- Concrete instantiation of `claim_C6_amended`: the listed spelling `"NaN"`
for a non-nullable column fails with the required-value-missing error. -/
theorem claim_C6_witness :
    ("NaN" ∈ NA_TOKENS ∨ pyTrim "NaN" ∈ NA_TOKENS)
    ∧ parse_value "NaN" ⟨"x", .int, false, some (.numeric 1 18)⟩
        = .error (.requiredValueMissing "x") :=
  ⟨by decide,
   by rw [claim_C6_amended.1 "NaN" ⟨"x", .int, false, some (.numeric 1 18)⟩ (by decide)]; decide⟩

/-- C8: the spec's scenario — integer, non-nullable, range `[1, 18]`, raw
`"20"` — parses to the clamped 18 with `coerced = true`; and in general a
numeric value outside `[low, high]` is clamped by the range-enforcement step
to `max low (min value high)` — the nearer bound — and flagged coerced
rather than rejected. -/
theorem claim_C8 :
    parse_value "20" ⟨"byeWeek", .int, false, some (.numeric 1 18)⟩ = .ok (.num 18, true)
    ∧ (∀ (spec : ColumnSpec) (lo hi q : ℚ) (c : Bool),
        spec.allowed_range = some (.numeric lo hi) →
        lo ≤ hi → (q < lo ∨ hi < q) →
        validate_range spec (.num q) c = .ok (.num (max lo (min q hi)), true)
        ∧ (q < lo → max lo (min q hi) = lo)
        ∧ (hi < q → max lo (min q hi) = hi)) := by
  refine ⟨by decide, ?_⟩
  intro spec lo hi q c hr hlh hout
  have hno : ¬(lo ≤ q ∧ q ≤ hi) := by
    rcases hout with h | h
    · intro hc; linarith [hc.1]
    · intro hc; linarith [hc.2]
  refine ⟨by simp [validate_range, hr, hno], ?_, ?_⟩
  · intro hq
    rw [min_eq_left (le_trans hq.le hlh), max_eq_left hq.le]
  · intro hq
    rw [min_eq_right hq.le, max_eq_right hlh]

/-- Concrete instantiation of `claim_C8`'s general clamp at 20 against
`[1, 18]`. -/
theorem claim_C8_witness :
    validate_range ⟨"byeWeek", .int, false, some (.numeric 1 18)⟩ (.num 20) false
      = .ok (.num (max 1 (min 20 18)), true) :=
  (claim_C8.2 ⟨"byeWeek", .int, false, some (.numeric 1 18)⟩ 1 18 20 false rfl
    (by norm_num) (by norm_num)).1

/-- C9: for a team-code column (any of the three registered team column
names), with the canonical allowed set and the registered alias table
mapping `ARZ → ARI`, the raw value `"ARZ"` is normalized to the canonical
`"ARI"` with `coerced = true`, whatever the column's nullability. -/
theorem claim_C9 (nm : String) (nb : Bool)
    (h : nm = "teamName" ∨ nm = "Team Abbreviation" ∨ nm = "Team") :
    parse_value "ARZ" ⟨nm, .str, nb, some (.cat VALID_TEAMS)⟩ = .ok (.str "ARI", true) := by
  rcases h with h | h | h <;> subst h <;> cases nb <;> decide

/-- Concrete instantiation of `claim_C9` at the `teamName` column. -/
theorem claim_C9_witness :
    parse_value "ARZ" ⟨"teamName", .str, false, some (.cat VALID_TEAMS)⟩
      = .ok (.str "ARI", true) :=
  claim_C9 "teamName" false (Or.inl rfl)

/-- C10: for every nullable column, a non-null raw value whose dtype
conversion fails makes `parse_value` return null with `coerced = true`
instead of raising; at row level the column stores null, counts one
coercion and one null, adds no field-level exception, and leaves the row
valid (so the row is not quarantined for it). -/
theorem claim_C10 (s : String) (spec : ColumnSpec)
    (hnb : spec.nullable = true)
    (hna : ¬(s ∈ NA_TOKENS ∨ pyTrim s ∈ NA_TOKENS))
    (hfail : coerce_dtype spec.dtype s = none) :
    parse_value s spec = .ok (.null, true)
    ∧ ∀ (specs : List (String × ColumnSpec)) (strict : Bool) (n : Nat)
        (acc : RowAcc) (c : String),
        alookup (pyTrim c) specs = some spec →
        processColumn specs strict n acc (c, s)
          = ({ acc with
                fields := acc.fields ++ [(pyTrim c, Value.null)],
                coercions := acc.coercions + 1,
                nulls := acc.nulls + 1 }, none) := by
  have hpv : parse_value s spec = .ok (.null, true) := by
    simp [parse_value, hna, hfail, hnb]
  refine ⟨hpv, ?_⟩
  intro specs strict n acc c hl
  simp [processColumn, hl, hpv]

/-- Concrete instantiation of `claim_C10`: the non-numeric `"abc"` for a
nullable integer column becomes null with `coerced = true`. -/
theorem claim_C10_witness :
    parse_value "abc" ⟨"x", .int, true, none⟩ = .ok (.null, true) :=
  (claim_C10 "abc" ⟨"x", .int, true, none⟩ rfl (by decide) (by decide)).1
